import Mathlib

noncomputable section

/-!
Shallow embedding of `boids2d.py` (class `boid2D` and the simulation loop of
class `boidrender`).  Python floats are modelled as real numbers; the 2-element
position and heading lists become functions `Fin 2 → ℝ`; the module-level
mutable globals (`senserange`, `separate`, `align`, `cohere`, `velocity`,
`noise`, `bounce`, `root_sep`) become an explicit parameter record threaded
through every operation.
-/

/-- The mutable global parameter set of `boids2d.py`. -/
structure Params where
  senserange : ℝ
  separate : ℝ
  align : ℝ
  cohere : ℝ
  velocity : ℝ
  noise : ℝ
  bounce : Bool
  root_sep : Bool

/-- One boid: a position, a heading and a stable id (`boid2D.__init__`). -/
structure Boid where
  pos : Fin 2 → ℝ
  heading : Fin 2 → ℝ
  idnum : ℕ

/-- `boid2D.findnear`: scan the array; keep a boid when the rough per-axis
check passes, the exact Euclidean check passes, and the id differs. -/
def findnear (p : Params) (self : Boid) : List Boid → List Boid
  | [] => []
  | b :: rest =>
    if |b.pos 0 - self.pos 0| < p.senserange ∧ |b.pos 1 - self.pos 1| < p.senserange then
      if Real.sqrt ((b.pos 0 - self.pos 0) ^ 2 + (b.pos 1 - self.pos 1) ^ 2) < p.senserange then
        if self.idnum ≠ b.idnum then b :: findnear p self rest
        else findnear p self rest
      else findnear p self rest
    else findnear p self rest

/-- The accumulation loop of `boid2D.adjustheading`: starting from `0`,
add `f boid` for each guide boid in turn. -/
def accum (f : Boid → ℝ) (l : List Boid) : ℝ :=
  l.foldl (fun acc b => acc + f b) 0

/-- One guide boid's contribution to `anticrowd[i]` in `boid2D.adjustheading`. -/
def anticontrib (p : Params) (self b : Boid) (i : Fin 2) : ℝ :=
  if p.root_sep then
    if b.pos i < self.pos i then
      -Real.sqrt (p.senserange - |self.pos i - b.pos i|)
    else
      Real.sqrt (p.senserange - |b.pos i - self.pos i|)
  else
    -((p.senserange - |self.pos i - b.pos i|) ^ 2)

/-- The heading of a boid after the rule contributions of
`boid2D.adjustheading` but before the final normalization step.  When the
guide list is empty the loop body is skipped (`pass`). -/
def ruleheading (p : Params) (self : Boid) (l : List Boid) (i : Fin 2) : ℝ :=
  if l.length = 0 then self.heading i
  else
    self.heading i
      - p.separate * (accum (fun b => anticontrib p self b i) l / l.length)
      + p.cohere * (accum (fun b => b.pos i) l / l.length - self.pos i)
      + p.align * (accum (fun b => b.heading i) l / l.length)

/-- The magnitude computed at the end of `boid2D.adjustheading`. -/
def rulemag (p : Params) (self : Boid) (l : List Boid) : ℝ :=
  Real.sqrt (ruleheading p self l 0 ^ 2 + ruleheading p self l 1 ^ 2)

/-- `boid2D.adjustheading`: apply the rule contributions, then normalize the
heading to magnitude `velocity` (or to the zero vector when the magnitude
vanishes). -/
def adjustheading (p : Params) (l : List Boid) (self : Boid) : Boid :=
  if rulemag p self l = 0 then
    { self with heading := fun _ => 0 }
  else
    { self with heading := fun i => ruleheading p self l i * p.velocity / rulemag p self l }

/-- The heading component after the optional noise injection inside
`boid2D.movetick`. -/
def noisedHeading (p : Params) (addnoise : Bool) (draws : Fin 2 → ℝ) (b : Boid) (i : Fin 2) : ℝ :=
  if addnoise then b.heading i + (draws i * p.noise - p.noise / 2)
  else b.heading i

/-- `boid2D.movetick`: per axis, integrate the heading into the position,
optionally inject noise into the heading, then apply the boundary policy
selected by `bounce`.  The `multiplier` argument is part of the source
signature.  Random draws are passed explicitly, one per axis. -/
def movetick (p : Params) (bound multiplier : ℝ) (addnoise : Bool) (draws : Fin 2 → ℝ)
    (b : Boid) : Boid :=
  { b with
    pos := fun i =>
      if p.bounce then b.pos i + b.heading i
      else if b.pos i + b.heading i > bound then b.pos i + b.heading i - bound
      else if b.pos i + b.heading i < 0 then bound - (b.pos i + b.heading i)
      else b.pos i + b.heading i,
    heading := fun i =>
      if p.bounce then
        if b.pos i + b.heading i > bound ∨ b.pos i + b.heading i < 0 then
          -(noisedHeading p addnoise draws b i)
        else noisedHeading p addnoise draws b i
      else noisedHeading p addnoise draws b i }

/-- `boidrender.setrange`: store the new slider value into the global. -/
def setrange (st : Params) (newval : ℝ) : Params :=
  { st with senserange := newval }

/-- `boidrender.setvelocity`: store the new slider value into the global. -/
def setvelocity (st : Params) (newval : ℝ) : Params :=
  { st with velocity := newval }

/-- The default parameter snapshot of `boidrender.__init__`
(`self.defaultparams`), with the boolean globals at their initial values. -/
def defaultparams : Params :=
  { senserange := 50, separate := 4.5, align := 2, cohere := 0.7,
    velocity := 5, noise := 1, bounce := false, root_sep := true }

/-- One step of pass 1 of `boidrender.update`: the boid at index `k` of the
array is replaced in place by its heading-adjusted version, computed against
the current (partially updated) array. -/
def pass1step (p : Params) (state : List Boid) (k : ℕ) : List Boid :=
  match state.get? k with
  | none => state
  | some b => state.set k (adjustheading p (findnear p b state) b)

/-- Pass 1 of `boidrender.update`: iterate `pass1step` over the array in
index order. -/
def pass1 (p : Params) (arr : List Boid) : List Boid :=
  (List.range arr.length).foldl (pass1step p) arr

/-- Pass 2 of `boidrender.update`: move every boid, each with its own noise
draws keyed by id. -/
def pass2 (p : Params) (bound multiplier : ℝ) (addnoise : Bool)
    (draws : ℕ → Fin 2 → ℝ) (arr : List Boid) : List Boid :=
  arr.map (fun b => movetick p bound multiplier addnoise (draws b.idnum) b)

/-- One full tick of `boidrender.update`: pass 1 then pass 2. -/
def tick (p : Params) (bound multiplier : ℝ) (addnoise : Bool)
    (draws : ℕ → Fin 2 → ℝ) (arr : List Boid) : List Boid :=
  pass2 p bound multiplier addnoise draws (pass1 p arr)

/-! Helper lemmas: `adjustheading` only rewrites the heading. -/

theorem adjustheading_pos (p : Params) (l : List Boid) (b : Boid) :
    (adjustheading p l b).pos = b.pos := by
  unfold adjustheading
  split <;> rfl

theorem adjustheading_idnum (p : Params) (l : List Boid) (b : Boid) :
    (adjustheading p l b).idnum = b.idnum := by
  unfold adjustheading
  split <;> rfl

/-! Concrete agents and parameter snapshots used by witnesses and
counterexamples. -/

/-- Parameter snapshot with bounce mode switched on. -/
def pbounce : Params := { defaultparams with bounce := true }

/-- An agent about to overrun the right edge. -/
def bOut : Boid := ⟨![5, 0], ![1, 0], 3⟩

/-- An agent about to overrun the left edge. -/
def bNeg : Boid := ⟨![0, 0], ![-(1 / 2), 0], 7⟩

/-- C10: the `multiplier` argument of `movetick` has no effect — for the same
agent, bound, noise setting and random draws, any two multiplier values give
identical resulting position and heading. -/
theorem movetick_multiplier_irrelevant (p : Params) (bound m1 m2 : ℝ) (addnoise : Bool)
    (draws : Fin 2 → ℝ) (b : Boid) :
    movetick p bound m1 addnoise draws b = movetick p bound m2 addnoise draws b := rfl

/-- C7: in bounce mode, when the integrated position leaves `[0, bound]` on an
axis, the heading component (after the optional noise injection) is negated
and the position is left at the raw computed value, not clamped. -/
theorem movetick_bounce_reflect (p : Params) (bound multiplier : ℝ) (addnoise : Bool)
    (draws : Fin 2 → ℝ) (b : Boid) (i : Fin 2) (hb : p.bounce = true)
    (hout : b.pos i + b.heading i > bound ∨ b.pos i + b.heading i < 0) :
    (movetick p bound multiplier addnoise draws b).pos i = b.pos i + b.heading i ∧
    (movetick p bound multiplier addnoise draws b).heading i
      = -(noisedHeading p addnoise draws b i) := by
  constructor
  · simp [movetick, hb]
  · simp only [movetick, hb, if_true]
    rw [if_pos hout]

/-- Witness for C7: a concrete bounce-mode agent stepping past `bound = 3`. -/
theorem movetick_bounce_reflect_witness :
    pbounce.bounce = true ∧
    (bOut.pos 0 + bOut.heading 0 > 3 ∨ bOut.pos 0 + bOut.heading 0 < 0) ∧
    ((movetick pbounce 3 1 false (fun _ => 0) bOut).pos 0 = bOut.pos 0 + bOut.heading 0 ∧
     (movetick pbounce 3 1 false (fun _ => 0) bOut).heading 0
       = -(noisedHeading pbounce false (fun _ => 0) bOut 0)) :=
  ⟨rfl, Or.inl (by norm_num [bOut]),
    movetick_bounce_reflect pbounce 3 1 false (fun _ => 0) bOut 0 rfl
      (Or.inl (by norm_num [bOut]))⟩

/-- C6 (amended): in wrap mode, if the pre-move position plus heading lies
within `[0, 2·bound]` on an axis, the post-move position lies in `[0, bound]`
on that axis. -/
theorem movetick_wrap_containment (p : Params) (bound multiplier : ℝ) (addnoise : Bool)
    (draws : Fin 2 → ℝ) (b : Boid) (i : Fin 2) (hb : p.bounce = false) (hbound : 0 < bound)
    (h0 : 0 ≤ b.pos i + b.heading i) (h2 : b.pos i + b.heading i ≤ 2 * bound) :
    0 ≤ (movetick p bound multiplier addnoise draws b).pos i ∧
    (movetick p bound multiplier addnoise draws b).pos i ≤ bound := by
  simp only [movetick, hb, Bool.false_eq_true, if_false]
  split_ifs with hgt hlt <;> constructor <;> linarith

/-- Witness for C6 (amended): a concrete wrap-mode agent crossing the right
edge at `bound = 1`. -/
theorem movetick_wrap_containment_witness :
    defaultparams.bounce = false ∧ (0 : ℝ) < 1 ∧
    0 ≤ bOut.pos 0 + bOut.heading 0 ∧ bOut.pos 0 + bOut.heading 0 ≤ 2 * 4 ∧
    (0 ≤ (movetick defaultparams 4 1 false (fun _ => 0) bOut).pos 0 ∧
     (movetick defaultparams 4 1 false (fun _ => 0) bOut).pos 0 ≤ 4) :=
  ⟨rfl, by norm_num, by norm_num [bOut], by norm_num [bOut],
    movetick_wrap_containment defaultparams 4 1 false (fun _ => 0) bOut 0 rfl
      (by norm_num) (by norm_num [bOut]) (by norm_num [bOut])⟩

/-- Counterexample for C6 as stated: with `bound = 1` and pre-move position
plus heading equal to `−1/2 ∈ [−bound, 2·bound]`, the wrap rule
`pos := bound − pos` sends the agent to `3/2`, outside `[0, bound]`. -/
theorem movetick_wrap_containment_cex :
    defaultparams.bounce = false ∧ (0 : ℝ) < 1 ∧
    -(1 : ℝ) ≤ bNeg.pos 0 + bNeg.heading 0 ∧ bNeg.pos 0 + bNeg.heading 0 ≤ 2 * 1 ∧
    (movetick defaultparams 1 1 false (fun _ => 0) bNeg).pos 0 = 3 / 2 ∧
    ¬ (movetick defaultparams 1 1 false (fun _ => 0) bNeg).pos 0 ≤ 1 := by
  refine ⟨rfl, by norm_num, by norm_num [bNeg], by norm_num [bNeg], ?_, ?_⟩ <;>
    norm_num [movetick, bNeg, defaultparams]

/-- C9 (amended): the slider setters store the new value unconditionally —
no validation, no error report. -/
theorem setters_no_validation (st : Params) (v : ℝ) :
    (setrange st v).senserange = v ∧ (setvelocity st v).velocity = v :=
  ⟨rfl, rfl⟩

/-- Counterexample for C9 as stated: setting the sensing range to `−1`
silently takes effect. -/
theorem setrange_negative_takes_effect :
    (setrange defaultparams (-1)).senserange = -1 ∧ (-1 : ℝ) < 0 :=
  ⟨rfl, by norm_num⟩

/-! The rough per-axis check is implied by the exact Euclidean check. -/

theorem abs_fst_lt_of_sqrt_lt {x y r : ℝ} (h : Real.sqrt (x ^ 2 + y ^ 2) < r) : |x| < r := by
  have hx : |x| ≤ Real.sqrt (x ^ 2 + y ^ 2) := by
    rw [← Real.sqrt_sq_eq_abs]
    exact Real.sqrt_le_sqrt (by nlinarith [sq_nonneg y])
  linarith

theorem abs_snd_lt_of_sqrt_lt {x y r : ℝ} (h : Real.sqrt (x ^ 2 + y ^ 2) < r) : |y| < r := by
  rw [add_comm] at h
  exact abs_fst_lt_of_sqrt_lt h

/-- Membership in `findnear`: exactly the boids of the array whose id differs
from the querying boid's and whose Euclidean distance to it is strictly below
the sensing range. -/
theorem mem_findnear_iff (p : Params) (self nb : Boid) (arr : List Boid) :
    nb ∈ findnear p self arr ↔
      nb ∈ arr ∧ self.idnum ≠ nb.idnum ∧
        Real.sqrt ((nb.pos 0 - self.pos 0) ^ 2 + (nb.pos 1 - self.pos 1) ^ 2) < p.senserange := by
  induction arr with
  | nil => simp [findnear]
  | cons b rest ih =>
    simp only [findnear]
    split_ifs with h1 h2 h3
    · rw [List.mem_cons, List.mem_cons, ih]
      constructor
      · rintro (rfl | ⟨hm, hid, hd⟩)
        · exact ⟨Or.inl rfl, h3, h2⟩
        · exact ⟨Or.inr hm, hid, hd⟩
      · rintro ⟨rfl | hm, hid, hd⟩
        · exact Or.inl rfl
        · exact Or.inr ⟨hm, hid, hd⟩
    · rw [ih, List.mem_cons]
      constructor
      · rintro ⟨hm, hid, hd⟩
        exact ⟨Or.inr hm, hid, hd⟩
      · rintro ⟨rfl | hm, hid, hd⟩
        · exact absurd hid h3
        · exact ⟨hm, hid, hd⟩
    · rw [ih, List.mem_cons]
      constructor
      · rintro ⟨hm, hid, hd⟩
        exact ⟨Or.inr hm, hid, hd⟩
      · rintro ⟨rfl | hm, hid, hd⟩
        · exact absurd hd h2
        · exact ⟨hm, hid, hd⟩
    · rw [ih, List.mem_cons]
      constructor
      · rintro ⟨hm, hid, hd⟩
        exact ⟨Or.inr hm, hid, hd⟩
      · rintro ⟨rfl | hm, hid, hd⟩
        · exact absurd ⟨abs_fst_lt_of_sqrt_lt hd, abs_snd_lt_of_sqrt_lt hd⟩ h1
        · exact ⟨hm, hid, hd⟩

/-- C2: `findnear` returns exactly the boids of the array with a different id
and Euclidean distance strictly below the sensing range; the querying boid is
never returned, a boid at distance exactly the range is not returned, and the
rough bounding pre-check never removes a boid passing the exact check. -/
theorem findnear_characterization (p : Params) (self nb : Boid) (arr : List Boid) :
    nb ∈ findnear p self arr ↔
      nb ∈ arr ∧ self.idnum ≠ nb.idnum ∧
        Real.sqrt ((nb.pos 0 - self.pos 0) ^ 2 + (nb.pos 1 - self.pos 1) ^ 2) < p.senserange :=
  mem_findnear_iff p self nb arr

/-- A boid coincident with `bNeg` but with a distinct id. -/
def bZ : Boid := ⟨![0, 0], ![0, 0], 9⟩

/-- C8: for every boid returned by `findnear` and every axis, the radicand
`senserange − |Δ|` handed to the square root in root-mode heading adjustment
is non-negative. -/
theorem findnear_radicand_nonneg (p : Params) (self nb : Boid) (arr : List Boid)
    (h : nb ∈ findnear p self arr) (i : Fin 2) :
    0 ≤ p.senserange - |self.pos i - nb.pos i| := by
  obtain ⟨-, -, hd⟩ := (mem_findnear_iff p self nb arr).mp h
  have h0 : |nb.pos 0 - self.pos 0| < p.senserange := abs_fst_lt_of_sqrt_lt hd
  have h1 : |nb.pos 1 - self.pos 1| < p.senserange := abs_snd_lt_of_sqrt_lt hd
  fin_cases i
  · show 0 ≤ p.senserange - |self.pos 0 - nb.pos 0|
    rw [abs_sub_comm]
    linarith
  · show 0 ≤ p.senserange - |self.pos 1 - nb.pos 1|
    rw [abs_sub_comm]
    linarith

/-- Witness for C8: a concrete boid inside the range of a concrete querier. -/
theorem findnear_radicand_nonneg_witness :
    bZ ∈ findnear defaultparams bNeg [bZ] ∧
    0 ≤ defaultparams.senserange - |bNeg.pos 0 - bZ.pos 0| := by
  have hmem : bZ ∈ findnear defaultparams bNeg [bZ] := by
    rw [mem_findnear_iff]
    refine ⟨List.mem_singleton.mpr rfl, by norm_num [bNeg, bZ], ?_⟩
    norm_num [bNeg, bZ, defaultparams, Real.sqrt_zero]
  exact ⟨hmem, findnear_radicand_nonneg defaultparams bNeg bZ [bZ] hmem 0⟩

/-! The accumulation loop computes a list sum. -/

theorem accum_eq_sum (f : Boid → ℝ) (l : List Boid) : accum f l = (l.map f).sum := by
  have key : ∀ (l : List Boid) (a : ℝ), l.foldl (fun acc b => acc + f b) a = a + (l.map f).sum := by
    intro l
    induction l with
    | nil => intro a; simp
    | cons b rest ih =>
      intro a
      simp only [List.foldl_cons, List.map_cons, List.sum_cons, ih]
      ring
  simpa [accum] using key l 0

/-! The two branches of `adjustheading`, as value lemmas on the heading. -/

theorem adjustheading_heading_of_eq (p : Params) (l : List Boid) (b : Boid)
    (hm : rulemag p b l = 0) (i : Fin 2) : (adjustheading p l b).heading i = 0 := by
  unfold adjustheading
  rw [if_pos hm]

theorem adjustheading_heading_of_ne (p : Params) (l : List Boid) (b : Boid)
    (hm : rulemag p b l ≠ 0) (i : Fin 2) :
    (adjustheading p l b).heading i = ruleheading p b l i * p.velocity / rulemag p b l := by
  unfold adjustheading
  rw [if_neg hm]

/-- C3: for a non-empty guide list in root mode, the pre-normalization heading
on each axis is the current heading, minus the separation weight times the
averaged signed-square-root separation signal, plus the cohesion weight times
(mean neighbor position − own position), plus the alignment weight times the
mean neighbor heading. -/
theorem ruleheading_formula (p : Params) (self : Boid) (l : List Boid)
    (hl : l ≠ []) (hroot : p.root_sep = true) (i : Fin 2) :
    ruleheading p self l i =
      self.heading i
        - p.separate * ((l.map (fun b =>
            if b.pos i < self.pos i then
              -Real.sqrt (p.senserange - |self.pos i - b.pos i|)
            else Real.sqrt (p.senserange - |b.pos i - self.pos i|))).sum / l.length)
        + p.cohere * ((l.map (fun b => b.pos i)).sum / l.length - self.pos i)
        + p.align * ((l.map (fun b => b.heading i)).sum / l.length) := by
  have hlen : l.length ≠ 0 := by simpa using hl
  unfold ruleheading
  rw [if_neg hlen, accum_eq_sum, accum_eq_sum, accum_eq_sum]
  simp only [anticontrib, hroot, if_true]

/-- Witness for C3: instantiated at a concrete one-neighbor configuration. -/
theorem ruleheading_formula_witness :
    ([bZ] ≠ []) ∧ defaultparams.root_sep = true ∧
    ruleheading defaultparams bOut [bZ] 0 =
      bOut.heading 0
        - defaultparams.separate * (([bZ].map (fun b =>
            if b.pos 0 < bOut.pos 0 then
              -Real.sqrt (defaultparams.senserange - |bOut.pos 0 - b.pos 0|)
            else Real.sqrt (defaultparams.senserange - |b.pos 0 - bOut.pos 0|))).sum
              / ([bZ] : List Boid).length)
        + defaultparams.cohere * (([bZ].map (fun b => b.pos 0)).sum
              / ([bZ] : List Boid).length - bOut.pos 0)
        + defaultparams.align * (([bZ].map (fun b => b.heading 0)).sum
              / ([bZ] : List Boid).length) :=
  ⟨by simp, rfl, ruleheading_formula defaultparams bOut [bZ] (by simp) rfl 0⟩

/-- C4: after `adjustheading`, if the rule-contribution heading has zero
magnitude then the heading is the zero vector; otherwise the new heading's
magnitude is exactly the velocity parameter. -/
theorem adjustheading_speed_clamp (p : Params) (l : List Boid) (b : Boid)
    (hv : 0 ≤ p.velocity) :
    (rulemag p b l = 0 → ∀ i, (adjustheading p l b).heading i = 0) ∧
    (rulemag p b l ≠ 0 →
      Real.sqrt ((adjustheading p l b).heading 0 ^ 2 + (adjustheading p l b).heading 1 ^ 2)
        = p.velocity) := by
  constructor
  · intro h0 i
    exact adjustheading_heading_of_eq p l b h0 i
  · intro hm
    have hpos : 0 < rulemag p b l := lt_of_le_of_ne (Real.sqrt_nonneg _) (Ne.symm hm)
    have hsq : ruleheading p b l 0 ^ 2 + ruleheading p b l 1 ^ 2 = rulemag p b l ^ 2 := by
      rw [rulemag, Real.sq_sqrt (by positivity)]
    rw [adjustheading_heading_of_ne p l b hm 0, adjustheading_heading_of_ne p l b hm 1]
    have key : (ruleheading p b l 0 * p.velocity / rulemag p b l) ^ 2
        + (ruleheading p b l 1 * p.velocity / rulemag p b l) ^ 2 = p.velocity ^ 2 := by
      field_simp
      linear_combination p.velocity ^ 2 * hsq
    rw [key, Real.sqrt_sq hv]

/-- Witness for C4: instantiated at the default parameters. -/
theorem adjustheading_speed_clamp_witness :
    0 ≤ defaultparams.velocity ∧
    ((rulemag defaultparams bOut [] = 0 →
        ∀ i, (adjustheading defaultparams [] bOut).heading i = 0) ∧
     (rulemag defaultparams bOut [] ≠ 0 →
        Real.sqrt ((adjustheading defaultparams [] bOut).heading 0 ^ 2
          + (adjustheading defaultparams [] bOut).heading 1 ^ 2) = defaultparams.velocity)) :=
  ⟨by norm_num [defaultparams],
    adjustheading_speed_clamp defaultparams [] bOut (by norm_num [defaultparams])⟩

/-- C5: with an empty guide list, `adjustheading` only rescales — the new
heading is a non-negative scalar multiple of the old one, and it is unchanged
when its magnitude already equals the velocity parameter. -/
theorem adjustheading_empty_direction (p : Params) (b : Boid) (hv : 0 ≤ p.velocity) :
    (∃ c : ℝ, 0 ≤ c ∧ ∀ i, (adjustheading p [] b).heading i = c * b.heading i) ∧
    (rulemag p b [] = p.velocity → ∀ i, (adjustheading p [] b).heading i = b.heading i) := by
  have hrh : ∀ i, ruleheading p b [] i = b.heading i := by
    intro i
    rw [ruleheading]
    simp
  by_cases hm : rulemag p b [] = 0
  · have hsum : b.heading 0 ^ 2 + b.heading 1 ^ 2 = 0 := by
      have hle := Real.sqrt_eq_zero'.mp (by rwa [rulemag, hrh 0, hrh 1] at hm)
      nlinarith [sq_nonneg (b.heading 0), sq_nonneg (b.heading 1)]
    have hzero : ∀ i, b.heading i = 0 := by
      intro i
      fin_cases i
      · show b.heading 0 = 0
        nlinarith [sq_nonneg (b.heading 0), sq_nonneg (b.heading 1)]
      · show b.heading 1 = 0
        nlinarith [sq_nonneg (b.heading 0), sq_nonneg (b.heading 1)]
    constructor
    · refine ⟨0, le_refl 0, fun i => ?_⟩
      rw [adjustheading_heading_of_eq p [] b hm i, zero_mul]
    · intro hveq i
      rw [adjustheading_heading_of_eq p [] b hm i, hzero i]
  · have hpos : 0 < rulemag p b [] := lt_of_le_of_ne (Real.sqrt_nonneg _) (Ne.symm hm)
    constructor
    · refine ⟨p.velocity / rulemag p b [], by positivity, fun i => ?_⟩
      rw [adjustheading_heading_of_ne p [] b hm i, hrh i]
      ring
    · intro hveq i
      rw [adjustheading_heading_of_ne p [] b hm i, hrh i, ← hveq]
      field_simp

/-- Witness for C5: instantiated at the default parameters. -/
theorem adjustheading_empty_direction_witness :
    0 ≤ defaultparams.velocity ∧
    ((∃ c : ℝ, 0 ≤ c ∧
        ∀ i, (adjustheading defaultparams [] bOut).heading i = c * bOut.heading i) ∧
     (rulemag defaultparams bOut [] = defaultparams.velocity →
        ∀ i, (adjustheading defaultparams [] bOut).heading i = bOut.heading i)) :=
  ⟨by norm_num [defaultparams],
    adjustheading_empty_direction defaultparams bOut (by norm_num [defaultparams])⟩

/-! Concrete two-boid population used to probe iteration-order dependence of
the tick: separation and cohesion weights zero, alignment weight one. -/

/-- Slider setting with only the alignment rule active. -/
def pC1 : Params :=
  { senserange := 2, separate := 0, align := 1, cohere := 0, velocity := 1,
    noise := 0, bounce := false, root_sep := true }

/-- First probe boid. -/
def bA : Boid := ⟨![0, 0], ![1, 0], 0⟩

/-- Second probe boid. -/
def bB : Boid := ⟨![1, 0], ![-1, 0], 1⟩

/-- Zero random draws for every agent. -/
def draws0 : ℕ → Fin 2 → ℝ := fun _ _ => 0

theorem c1_f1 : findnear pC1 bA [bA, bB] = [bB] := by
  simp only [findnear, pC1, bA, bB]
  norm_num [Real.sqrt_zero, Real.sqrt_one]

theorem c1_rA0 : ruleheading pC1 bA [bB] 0 = 0 := by
  simp only [ruleheading, accum, List.length_cons, List.length_nil, List.foldl_cons,
    List.foldl_nil]
  norm_num [pC1, bA, bB]

theorem c1_rA1 : ruleheading pC1 bA [bB] 1 = 0 := by
  simp only [ruleheading, accum, List.length_cons, List.length_nil, List.foldl_cons,
    List.foldl_nil]
  norm_num [pC1, bA, bB]

theorem c1_magA : rulemag pC1 bA [bB] = 0 := by
  rw [rulemag, c1_rA0, c1_rA1]
  norm_num [Real.sqrt_zero]

/-- The first probe boid after its pass-1 update when processed first. -/
def bA1 : Boid := adjustheading pC1 [bB] bA

theorem c1_bA1_pos : bA1.pos = bA.pos := adjustheading_pos pC1 [bB] bA

theorem c1_bA1_idnum : bA1.idnum = 0 := adjustheading_idnum pC1 [bB] bA

theorem c1_bA1_heading (i : Fin 2) : bA1.heading i = 0 :=
  adjustheading_heading_of_eq pC1 [bB] bA c1_magA i

theorem c1_f2 : findnear pC1 bB [bA1, bB] = [bA1] := by
  simp only [findnear, c1_bA1_pos, c1_bA1_idnum]
  simp only [pC1, bA, bB]
  norm_num [Real.sqrt_zero, Real.sqrt_one]

theorem c1_rB0 : ruleheading pC1 bB [bA1] 0 = -1 := by
  simp only [ruleheading, accum, List.length_cons, List.length_nil, List.foldl_cons,
    List.foldl_nil, c1_bA1_heading]
  norm_num [pC1, bB]

theorem c1_rB1 : ruleheading pC1 bB [bA1] 1 = 0 := by
  simp only [ruleheading, accum, List.length_cons, List.length_nil, List.foldl_cons,
    List.foldl_nil, c1_bA1_heading]
  norm_num [pC1, bB]

theorem c1_magB : rulemag pC1 bB [bA1] = 1 := by
  rw [rulemag, c1_rB0, c1_rB1]
  norm_num [Real.sqrt_one]

/-- The second probe boid after its pass-1 update when processed second. -/
def bB1 : Boid := adjustheading pC1 [bA1] bB

theorem c1_bB1_idnum : bB1.idnum = 1 := adjustheading_idnum pC1 [bA1] bB

theorem c1_bB1_heading0 : bB1.heading 0 = -1 := by
  rw [bB1, adjustheading_heading_of_ne pC1 [bA1] bB (by rw [c1_magB]; norm_num) 0,
    c1_rB0, c1_magB]
  norm_num [pC1]

theorem c1_pass1_order1 : pass1 pC1 [bA, bB] = [bA1, bB1] := by
  have hrange : List.range ([bA, bB] : List Boid).length = [0, 1] := rfl
  rw [pass1, hrange, List.foldl_cons, List.foldl_cons, List.foldl_nil]
  have hstep1 : pass1step pC1 [bA, bB] 0 = [bA1, bB] := by
    rw [pass1step]
    simp only [List.get?]
    rw [c1_f1]
    rfl
  rw [hstep1, pass1step]
  simp only [List.get?]
  rw [c1_f2]
  rfl

theorem c1_g1 : findnear pC1 bB [bB, bA] = [bA] := by
  simp only [findnear, pC1, bA, bB]
  norm_num [Real.sqrt_zero, Real.sqrt_one]

theorem c1_sB0 : ruleheading pC1 bB [bA] 0 = 0 := by
  simp only [ruleheading, accum, List.length_cons, List.length_nil, List.foldl_cons,
    List.foldl_nil]
  norm_num [pC1, bA, bB]

theorem c1_sB1 : ruleheading pC1 bB [bA] 1 = 0 := by
  simp only [ruleheading, accum, List.length_cons, List.length_nil, List.foldl_cons,
    List.foldl_nil]
  norm_num [pC1, bA, bB]

theorem c1_magB2 : rulemag pC1 bB [bA] = 0 := by
  rw [rulemag, c1_sB0, c1_sB1]
  norm_num [Real.sqrt_zero]

/-- The second probe boid after its pass-1 update when processed first. -/
def bB2 : Boid := adjustheading pC1 [bA] bB

theorem c1_bB2_pos : bB2.pos = bB.pos := adjustheading_pos pC1 [bA] bB

theorem c1_bB2_idnum : bB2.idnum = 1 := adjustheading_idnum pC1 [bA] bB

theorem c1_bB2_heading (i : Fin 2) : bB2.heading i = 0 :=
  adjustheading_heading_of_eq pC1 [bA] bB c1_magB2 i

theorem c1_g2 : findnear pC1 bA [bB2, bA] = [bB2] := by
  simp only [findnear, c1_bB2_pos, c1_bB2_idnum]
  simp only [pC1, bA, bB]
  norm_num [Real.sqrt_zero, Real.sqrt_one]

theorem c1_sA0 : ruleheading pC1 bA [bB2] 0 = 1 := by
  simp only [ruleheading, accum, List.length_cons, List.length_nil, List.foldl_cons,
    List.foldl_nil, c1_bB2_heading]
  norm_num [pC1, bA]

theorem c1_sA1 : ruleheading pC1 bA [bB2] 1 = 0 := by
  simp only [ruleheading, accum, List.length_cons, List.length_nil, List.foldl_cons,
    List.foldl_nil, c1_bB2_heading]
  norm_num [pC1, bA]

theorem c1_magA2 : rulemag pC1 bA [bB2] = 1 := by
  rw [rulemag, c1_sA0, c1_sA1]
  norm_num [Real.sqrt_one]

/-- The first probe boid after its pass-1 update when processed second. -/
def bA2 : Boid := adjustheading pC1 [bB2] bA

theorem c1_bA2_idnum : bA2.idnum = 0 := adjustheading_idnum pC1 [bB2] bA

theorem c1_bA2_heading0 : bA2.heading 0 = 1 := by
  rw [bA2, adjustheading_heading_of_ne pC1 [bB2] bA (by rw [c1_magA2]; norm_num) 0,
    c1_sA0, c1_magA2]
  norm_num [pC1]

theorem c1_pass1_order2 : pass1 pC1 [bB, bA] = [bB2, bA2] := by
  have hrange : List.range ([bB, bA] : List Boid).length = [0, 1] := rfl
  rw [pass1, hrange, List.foldl_cons, List.foldl_cons, List.foldl_nil]
  have hstep1 : pass1step pC1 [bB, bA] 0 = [bB2, bA] := by
    rw [pass1step]
    simp only [List.get?]
    rw [c1_g1]
    rfl
  rw [hstep1, pass1step]
  simp only [List.get?]
  rw [c1_g2]
  rfl

/-- Counterexample for C1: the same two-boid population, iterated in the two
possible orders with identical per-agent random draws, gives the agent with
id 0 a final x-heading of 0 in one order and 1 in the other — one tick is
not order-independent, because pass-1 heading adjustment reads headings
already updated in the same pass. -/
theorem tick_order_dependent_cex :
    ([bA, bB] : List Boid).Perm [bB, bA] ∧
    ((tick pC1 1000 (1 / 2) true draws0 [bA, bB]).get? 0).map
        (fun b => (b.idnum, b.heading 0)) = some ((0 : ℕ), (0 : ℝ)) ∧
    ((tick pC1 1000 (1 / 2) true draws0 [bB, bA]).get? 1).map
        (fun b => (b.idnum, b.heading 0)) = some ((0 : ℕ), (1 : ℝ)) ∧
    (0 : ℝ) ≠ 1 := by
  refine ⟨List.Perm.swap bB bA [], ?_, ?_, by norm_num⟩
  · rw [tick, c1_pass1_order1, pass2]
    simp only [List.map_cons, List.map_nil, List.get?, Option.map_some']
    simp only [movetick, noisedHeading, c1_bA1_idnum, c1_bA1_heading]
    norm_num [pC1, draws0]
  · rw [tick, c1_pass1_order2, pass2]
    simp only [List.map_cons, List.map_nil, List.get?, Option.map_some']
    simp only [movetick, noisedHeading, c1_bA2_idnum, c1_bA2_heading0]
    norm_num [pC1, draws0]

/-! The observable data a neighbor query can depend on: id and position. -/

/-- The id and position of a boid — everything `findnear` reads. -/
def pairOf (b : Boid) : ℕ × (Fin 2 → ℝ) := (b.idnum, b.pos)

theorem map_set_of_eq {α β : Type} (f : α → β) :
    ∀ (l : List α) (n : ℕ) (a b : α), l.get? n = some b → f a = f b →
      (l.set n a).map f = l.map f := by
  intro l
  induction l with
  | nil =>
    intro n a b h hf
    simp at h
  | cons x xs ih =>
    intro n a b h hf
    cases n with
    | zero =>
      simp only [List.get?] at h
      injection h with h
      subst h
      simp [List.set, hf]
    | succ m =>
      simp only [List.get?] at h
      simp [List.set, ih m a b h hf]

theorem pass1step_map_pairOf (p : Params) (state : List Boid) (k : ℕ) :
    (pass1step p state k).map pairOf = state.map pairOf := by
  unfold pass1step
  cases hget : state.get? k with
  | none => rfl
  | some b =>
    exact map_set_of_eq pairOf state k _ b hget
      (by simp [pairOf, adjustheading_pos, adjustheading_idnum])

theorem pass1_prefix_map_pairOf (p : Params) (arr : List Boid) (k : ℕ) :
    ((List.range k).foldl (pass1step p) arr).map pairOf = arr.map pairOf := by
  induction k with
  | zero => rfl
  | succ n ih =>
    rw [List.range_succ, List.foldl_append, List.foldl_cons, List.foldl_nil,
      pass1step_map_pairOf, ih]

theorem findnear_map_pairOf (p : Params) :
    ∀ (l1 l2 : List Boid) (s1 s2 : Boid), l1.map pairOf = l2.map pairOf →
      s1.pos = s2.pos → s1.idnum = s2.idnum →
      (findnear p s1 l1).map pairOf = (findnear p s2 l2).map pairOf := by
  intro l1
  induction l1 with
  | nil =>
    intro l2 s1 s2 h hp hid
    cases l2 with
    | nil => rfl
    | cons b bs => simp at h
  | cons a as ih =>
    intro l2 s1 s2 h hp hid
    cases l2 with
    | nil => simp at h
    | cons b bs =>
      simp only [List.map_cons, List.cons.injEq] at h
      obtain ⟨hab, hrest⟩ := h
      have hpos : a.pos = b.pos := congrArg Prod.snd hab
      have hid2 : a.idnum = b.idnum := congrArg Prod.fst hab
      simp only [findnear]
      rw [hp, hid, hpos, hid2]
      split_ifs with h1 h2 h3
      · rw [List.map_cons, List.map_cons, hab, ih bs s1 s2 hrest hp hid]
      · exact ih bs s1 s2 hrest hp hid
      · exact ih bs s1 s2 hrest hp hid
      · exact ih bs s1 s2 hrest hp hid

/-- C1 (amended): during pass 1, after any number of update steps, every
agent still has its pre-tick position, and its neighbor query returns agents
with exactly the ids and positions it would return on the pre-tick snapshot —
heading mutations never affect neighbor queries.  (Full order-independence of
the tick fails; see the counterexample.) -/
theorem pass1_snapshot_neighbor_queries (p : Params) (arr : List Boid) (k j : ℕ)
    (hj : j < arr.length) :
    ∃ bmid borig : Boid,
      ((List.range k).foldl (pass1step p) arr).get? j = some bmid ∧
      arr.get? j = some borig ∧
      bmid.pos = borig.pos ∧ bmid.idnum = borig.idnum ∧
      (findnear p bmid ((List.range k).foldl (pass1step p) arr)).map pairOf
        = (findnear p borig arr).map pairOf := by
  have hmap := pass1_prefix_map_pairOf p arr k
  obtain ⟨borig, hbo⟩ : ∃ b, arr.get? j = some b :=
    ⟨arr.get ⟨j, hj⟩, List.get?_eq_get hj⟩
  have hq : (((List.range k).foldl (pass1step p) arr).get? j).map pairOf
      = (arr.get? j).map pairOf := by
    rw [← List.get?_map, ← List.get?_map, hmap]
  rw [hbo] at hq
  cases hmid : ((List.range k).foldl (pass1step p) arr).get? j with
  | none =>
    rw [hmid] at hq
    simp at hq
  | some bmid =>
    rw [hmid] at hq
    simp only [Option.map_some'] at hq
    injection hq with hq
    have hpos : bmid.pos = borig.pos := congrArg Prod.snd hq
    have hid : bmid.idnum = borig.idnum := congrArg Prod.fst hq
    exact ⟨bmid, borig, rfl, hbo, hpos, hid,
      findnear_map_pairOf p _ arr bmid borig hmap hpos hid⟩

/-- Witness for C1 (amended): instantiated at a concrete two-boid array. -/
theorem pass1_snapshot_neighbor_queries_witness :
    (0 < ([bA, bB] : List Boid).length) ∧
    (∃ bmid borig : Boid,
      ((List.range 2).foldl (pass1step pC1) [bA, bB]).get? 0 = some bmid ∧
      ([bA, bB] : List Boid).get? 0 = some borig ∧
      bmid.pos = borig.pos ∧ bmid.idnum = borig.idnum ∧
      (findnear pC1 bmid ((List.range 2).foldl (pass1step pC1) [bA, bB])).map pairOf
        = (findnear pC1 borig [bA, bB]).map pairOf) :=
  ⟨by simp, pass1_snapshot_neighbor_queries pC1 [bA, bB] 2 0 (by simp)⟩
